import Mathlib

/-!
Shallow embedding of the CAW8Bookkeeper sheet parser (src/parseSheets.ts).

Cell values are the scalar values a spreadsheet cell can hold: text, number
(integers suffice for this domain), or boolean.  An absent value (the
JavaScript null of an empty cell, or undefined for a field that was never
set) is modelled as `none`; the two are conflated, which only affects the
rendering of missing values in log strings and is noted where it matters.
-/

set_option autoImplicit false

namespace CAW8

inductive CellVal where
  | str (s : String)
  | num (n : Int)
  | boolean (b : Bool)
deriving DecidableEq, Repr

/-- JavaScript truthiness of a cell value. -/
def truthyCell : CellVal → Bool
  | .str s => s != ""
  | .num n => n != 0
  | .boolean b => b

/-- JavaScript truthiness of a possibly absent value (null and undefined are falsy). -/
def truthy : Option CellVal → Bool
  | none => false
  | some v => truthyCell v

/-- JavaScript coercion of a cell value to a string, as produced by .toString(). -/
def toStringVal : CellVal → String
  | .str s => s
  | .num n => toString n
  | .boolean b => if b then "true" else "false"

/-- String rendering of a possibly absent value, as produced by template-literal
interpolation or by String().  A missing value renders as "undefined"
(null would render as "null"; both are modelled by none, and no claim
distinguishes the two spellings). -/
def jsStr : Option CellVal → String
  | none => "undefined"
  | some v => toStringVal v

/-- ASCII lowercasing of one character (the effect of
String.prototype.toLowerCase on this program's data). -/
def charLower (c : Char) : Char :=
  if 'A' ≤ c ∧ c ≤ 'Z' then Char.ofNat (c.toNat + 32) else c

/-- Lowercasing of a string, character by character. -/
def strLower (s : String) : String := ⟨s.data.map charLower⟩

/-- Whitespace trimming of a string (the effect of String.prototype.trim). -/
def strTrim (s : String) : String :=
  ⟨((s.data.dropWhile fun c => c.isWhitespace).reverse.dropWhile fun c => c.isWhitespace).reverse⟩

/-- Numeric value of a list of decimal digit characters. -/
def digitsVal (cs : List Char) : Nat :=
  cs.foldl (fun a c => a * 10 + (c.toNat - 48)) 0

/-- JavaScript parseInt on a string: skip leading whitespace, read an optional
sign and then a maximal run of decimal digits; NaN (here `none`) when no digit
is found. -/
def jsParseIntStr (s : String) : Option Int :=
  let cs := s.data.dropWhile (fun c => c.isWhitespace)
  let signed : Int × List Char :=
    match cs with
    | '-' :: t => (-1, t)
    | '+' :: t => (1, t)
    | _ => (1, cs)
  let ds := signed.2.takeWhile (fun c => c.isDigit)
  if ds.isEmpty then none else some (signed.1 * (digitsVal ds : Int))

/-- JavaScript parseInt applied to a raw cell value: the value is first
coerced to a string (undefined and null both coerce to unparsable text). -/
def jsParseInt (v : Option CellVal) : Option Int :=
  jsParseIntStr (jsStr v)

/-- JavaScript Number() coercion of a string, restricted to integer literals:
whitespace-only strings coerce to 0; otherwise an optional sign followed by
digits only.  Floats and hex are outside the data of this program. -/
def strToNum (s : String) : Option Int :=
  let t := strTrim s
  if t = "" then some 0
  else
    let signed : Int × List Char :=
      match t.data with
      | '-' :: r => (-1, r)
      | '+' :: r => (1, r)
      | r => (1, r)
    if signed.2 ≠ [] ∧ signed.2.all (fun c => c.isDigit) then
      some (signed.1 * (digitsVal signed.2 : Int))
    else none

/-- Numeric class of a value under JavaScript loose equality: numbers are
themselves, booleans coerce to 0/1, strings coerce via Number(). -/
def toNumClass : CellVal → Option Int
  | .num n => some n
  | .boolean b => some (if b then 1 else 0)
  | .str s => strToNum s

/-- JavaScript loose equality between two present values. -/
def jsEqCell (a b : CellVal) : Bool :=
  match a, b with
  | .str x, .str y => x == y
  | x, y =>
    match toNumClass x, toNumClass y with
    | some i, some j => i == j
    | _, _ => false

/-- JavaScript loose equality between possibly absent values: null/undefined
equal only each other. -/
def jsEq : Option CellVal → Option CellVal → Bool
  | none, none => true
  | some a, some b => jsEqCell a b
  | _, _ => false

/-- Property-key rendering of a value, as used when a raw value indexes a
JavaScript object (ToPropertyKey stringifies it). -/
def jsKeyStr (v : Option CellVal) : String :=
  jsStr v

/-- One worksheet: a titled 2-D grid of optionally present cell values with a
hidden flag.  Out-of-range coordinates are never read by the in-bounds scans
below; `getCellI` models the signed-index access of the one read that can go
out of bounds. -/
structure Sheet where
  title : String
  hidden : Bool
  rowCount : Nat
  columnCount : Nat
  cells : Nat → Nat → Option CellVal

/-- Signed-index cell access.  The spreadsheet library raises an out-of-bounds
error for coordinates outside the grid; the C10 theorems are about exactly
those coordinates, so the access is modelled as returning no value there. -/
def getCellI (s : Sheet) (row col : Int) : Option CellVal :=
  if 0 ≤ row ∧ row < (s.rowCount : Int) ∧ 0 ≤ col ∧ col < (s.columnCount : Int) then
    s.cells row.toNat col.toNat
  else none

/-- OpConfig of parseSheets.ts.  The source declares the flags boolean but
assigns them straight from a cell (value as boolean), so a flag really holds
whatever raw value sat in the adjacent cell; it is only ever consumed through
truthiness. -/
structure OpConfig where
  countBolters : Option CellVal
  countDeaths : Option CellVal
deriving DecidableEq, Repr

def defaultConfig : OpConfig :=
  { countBolters := some (.boolean true), countDeaths := some (.boolean true) }

/-- The anchor test of getOpConfig: a truthy cell whose lowercased — but not
trimmed — text is "config". -/
def configCellMatch (v : Option CellVal) : Bool :=
  match v with
  | some v => truthyCell v && (strLower (toStringVal v) == "config")
  | none => false

/-- Row-major scan for the first cell passing the anchor test
(parseSheets.ts getOpConfig, first loop). -/
def findConfigAnchor (s : Sheet) : Option (Nat × Nat) :=
  (List.range s.rowCount).findSome? fun row =>
    ((List.range s.columnCount).find? fun col =>
      configCellMatch (s.cells row col)).map fun col => (row, col)

/-- One row of the config scan (getOpConfig, second loop body): falsy cells
are skipped; a lowercased key match copies the raw value of the adjacent
column into the flag. -/
def configScanStep (s : Sheet) (configColumn : Nat) (config : OpConfig) (row : Nat) : OpConfig :=
  match s.cells row configColumn with
  | none => config
  | some v =>
    if truthyCell v = false then config
    else
      let cellVal := strLower (toStringVal v)
      let config1 :=
        if cellVal = "count bolters" then
          { config with countBolters := s.cells row (configColumn + 1) }
        else config
      if cellVal = "count deaths" then
        { config1 with countDeaths := s.cells row (configColumn + 1) }
      else config1

/-- getOpConfig of parseSheets.ts: default config when no anchor is found,
otherwise every row below the anchor down to the last row of the grid is
scanned. -/
def getOpConfig (s : Sheet) : OpConfig :=
  match findConfigAnchor s with
  | none => defaultConfig
  | some (configRow, configColumn) =>
    (List.range' (configRow + 1) (s.rowCount - (configRow + 1))).foldl
      (configScanStep s configColumn) defaultConfig

/-- The key test of one config-scan row: a truthy cell in the anchor column
whose lowercased text equals the given key. -/
def configKeyMatch (s : Sheet) (configColumn : Nat) (key : String) (row : Nat) : Bool :=
  match s.cells row configColumn with
  | some v => truthyCell v && (strLower (toStringVal v) == key)
  | none => false

/-- Last row below the anchor whose cell in the anchor column matches the
given config key. -/
def lastKeyRow (s : Sheet) (configRow configColumn : Nat) (key : String) : Option Nat :=
  ((List.range' (configRow + 1) (s.rowCount - (configRow + 1))).filter
    (configKeyMatch s configColumn key)).getLast?

/-- Field-to-column mapping discovered per block (ColumnMap of parseSheets.ts);
a field whose header text is not found in the header row stays unmapped. -/
structure ColumnMap where
  uniqueName : Option Nat
  callsign : Option Nat
  type : Option Nat
  bolters : Option Nat
  wire : Option Nat
  lsoGrade : Option Nat
  combatDeaths : Option Nat
  promotions : Option Nat
  remarks : Option Nat
deriving DecidableEq, Repr

/-- First column of the given row whose truthy cell has trimmed text equal to
the expected header (loadColumnMap inner loop). -/
def findColumn (s : Sheet) (row : Nat) (expected : String) : Option Nat :=
  (List.range s.columnCount).find? fun col =>
    match s.cells row col with
    | some v => truthyCell v && (strTrim (toStringVal v) == expected)
    | none => false

/-- loadColumnMap of parseSheets.ts, with the header vocabulary of
columNameMap.  An unmatched field is only logged in the source. -/
def loadColumnMap (s : Sheet) (row : Nat) : ColumnMap :=
  { uniqueName := findColumn s row "Name"
    callsign := findColumn s row "Callsign"
    type := findColumn s row "Type"
    bolters := findColumn s row "Bolters"
    wire := findColumn s row "Wire No."
    lsoGrade := findColumn s row "LSO Grade"
    combatDeaths := findColumn s row "Combat Deaths"
    promotions := findColumn s row "Promotions"
    remarks := findColumn s row "Remarks" }

/-- OpMember of parseSheets.ts: the raw values read from one row.  A field
whose column is unmapped is never assigned and stays undefined. -/
structure OpMember where
  uniqueName : Option CellVal
  displayName : Option CellVal
  callsign : Option CellVal
  type : Option CellVal
  bolters : Option CellVal
  wire : Option CellVal
  lsoGrade : Option CellVal
  combatDeaths : Option CellVal
  promotions : Option CellVal
  remarks : Option CellVal
deriving DecidableEq, Repr

/-- Value of one field of a member row: the cell in the mapped column, or
undefined when the field has no column. -/
def readField (s : Sheet) (row : Nat) (col : Option Nat) : Option CellVal :=
  match col with
  | some c => s.cells row c
  | none => none

/-- Lowercasing of a raw value as applied by parseOpMemberRow.  The source
calls String.prototype.toLowerCase, which would raise a TypeError on a truthy
non-string; such values are left unchanged here and no claim depends on them. -/
def lowerVal : Option CellVal → Option CellVal
  | some (.str s) => some (.str (strLower s))
  | v => v

/-- parseOpMemberRow of parseSheets.ts: read every mapped field, then, when
the identity field is truthy, keep the original as displayName and lowercase
uniqueName.  displayName has no entry in columNameMap and is never read from
the sheet. -/
def parseOpMemberRow (s : Sheet) (row : Nat) (mapping : ColumnMap) : OpMember :=
  let member : OpMember :=
    { uniqueName := readField s row mapping.uniqueName
      displayName := none
      callsign := readField s row mapping.callsign
      type := readField s row mapping.type
      bolters := readField s row mapping.bolters
      wire := readField s row mapping.wire
      lsoGrade := readField s row mapping.lsoGrade
      combatDeaths := readField s row mapping.combatDeaths
      promotions := readField s row mapping.promotions
      remarks := readField s row mapping.remarks }
  if truthy member.uniqueName then
    { member with
      displayName := member.uniqueName
      uniqueName := lowerVal member.uniqueName }
  else member

/-- Rows whose first-column cell loosely equals "Name" (the block-header
sentinel test of Op.fromSheet). -/
def nameHeaderRows (s : Sheet) : List Nat :=
  (List.range s.rowCount).filter fun row => jsEq (s.cells row 0) (some (.str "Name"))

/-- Member rows of the block whose header is at startRow (the loop of
Op.load): rows after the header, stopping as soon as the row two positions
ahead exists and carries the header sentinel. -/
def memberRows (s : Sheet) (startRow : Nat) : List Nat :=
  (List.range' (startRow + 1) (s.rowCount - (startRow + 1))).takeWhile fun row =>
    !(decide (row + 2 < s.rowCount) && jsEq (s.cells (row + 2) 0) (some (.str "Name")))

/-- A fully loaded operation block.  The source class also keeps the backing
worksheet, which run() deletes before output; it is passed separately here. -/
structure Op where
  name : String
  timeslot : Option CellVal
  config : OpConfig
  members : List OpMember
deriving DecidableEq, Repr

/-- Construction plus Op.load for the block whose header sentinel sits at
startRow: the timeslot is read from the cell directly above the header (the
source calls getCell(startRow - 1, 0) with a signed index). -/
def loadOpAt (s : Sheet) (config : OpConfig) (startRow : Nat) : Op :=
  let timeslot := getCellI s ((startRow : Int) - 1) 0
  let mapping := loadColumnMap s startRow
  { name := s.title ++ " " ++ jsStr timeslot
    timeslot := timeslot
    config := config
    members := (memberRows s startRow).map fun row => parseOpMemberRow s row mapping }

/-- Op.fromSheet of parseSheets.ts: one config per sheet, one block per
header sentinel, in top-to-bottom order. -/
def Op.fromSheet (s : Sheet) : List Op :=
  let opConfig := getOpConfig s
  (nameHeaderRows s).map fun row => loadOpAt s opConfig row

/-- Op.getMember: first member whose raw uniqueName loosely equals the given
raw name. -/
def Op.getMember (op : Op) (name : Option CellVal) : Option OpMember :=
  op.members.find? fun member => jsEq member.uniqueName name

/-- The classification outcome of one raw value (the Change enum). -/
inductive Change where
  | NoChange
  | Passed
  | Failed
deriving DecidableEq, Repr

/-- parseEvent of parseSheets.ts.  The source computes parseInt(value) first
and then guards on value === undefined, value === null, value === "" and
isNaN; undefined and null are both `none` here. -/
def parseEvent (value : Option CellVal) (ignoreBecauseOfConfig : Bool) : Change :=
  if ignoreBecauseOfConfig then .NoChange
  else
    let num := jsParseInt value
    if value = none ∨ value = some (.str "") ∨ num = none then .NoChange
    else if 0 < num.getD 0 then .Failed
    else .Passed

/-- Effect of one classification on a rolling streak counter (the three
branches at the top of each category block in parseMember): Failed resets,
Passed increments, NoChange leaves it alone. -/
def streakUpdate (counter : Nat) (result : Change) : Nat :=
  match result with
  | .Failed => 0
  | .Passed => counter + 1
  | .NoChange => counter

/-- Threshold check after the update (the opsWithoutX >= 5 blocks): at 5 or
more the counter resets to 0 and an achievement is emitted. -/
def streakEmit (counter : Nat) : Nat × Bool :=
  if 5 ≤ counter then (0, true) else (counter, false)

/-- One whole block step for a single category: classification effect
followed by the threshold check. -/
def streakStep (counter : Nat) (result : Change) : Nat × Bool :=
  streakEmit (streakUpdate counter result)

/-- One replay step over a (counter, emissions so far) pair. -/
def streakRunStep (acc : Nat × Nat) (r : Change) : Nat × Nat :=
  let step := streakStep acc.1 r
  (step.1, acc.2 + if step.2 then 1 else 0)

/-- Replay of a sequence of classifications for one category from a starting
counter, returning the final counter and how many achievements were emitted. -/
def streakRun (counter : Nat) (l : List Change) : Nat × Nat :=
  l.foldl streakRunStep (counter, 0)

/-- The two achievement categories (AchievementEvent.kind of the spec). -/
inductive AchKind where
  | NoDeathStreak
  | NoBolterStreak
deriving DecidableEq, Repr

/-- An emitted achievement: block name, rendered display name, category and
the award-occurrence count interpolated into the per-block log line.  The log
strings in processOp are rendered from these fields. -/
structure AchEvent where
  opName : String
  displayName : String
  kind : AchKind
  reported : Nat
deriving DecidableEq, Repr

/-- Number of events of one category in a list of events. -/
def countKind (k : AchKind) (l : List AchEvent) : Nat :=
  (l.filter fun e => e.kind == k).length

/-- OverallMember of parseSheets.ts (the per-participant record stored in
this.members). -/
structure OverallMember where
  history : String
  fiveOpsWithoutDeath : Nat
  fiveOpsWithoutBolter : Nat
deriving DecidableEq, Repr

/-- Accumulator of one parseMember replay: the participant record being
built, the two local rolling counters, the text this call appends to the
global achievement history, the per-block log lines it appends (keyed by
block name, in append order), and the emitted achievement events. -/
structure MemberAcc where
  overall : OverallMember
  opsWithoutDeath : Nat
  opsWithoutBolter : Nat
  achDelta : String
  opLogDeltas : List (String × String)
  events : List AchEvent
deriving DecidableEq, Repr

def initMemberAcc : MemberAcc :=
  { overall := { history := "", fiveOpsWithoutDeath := 0, fiveOpsWithoutBolter := 0 }
    opsWithoutDeath := 0
    opsWithoutBolter := 0
    achDelta := ""
    opLogDeltas := []
    events := [] }

/-- Body of the ops.forEach loop of parseMember, for one block.  A block the
participant is absent from changes nothing.  Otherwise: classify deaths and
bolters, update the rolling counters, then run the two threshold blocks in
source order — note that the death achievement increments (and reports) the
fiveOpsWithoutBolter field and the bolter achievement the fiveOpsWithoutDeath
field, exactly as in the source — and finally append the narrative line. -/
def processOp (name : Option CellVal) (acc : MemberAcc) (op : Op) : MemberAcc :=
  match op.getMember name with
  | none => acc
  | some member =>
    let opName := op.name
    let deathResult := parseEvent member.combatDeaths (!truthy op.config.countDeaths)
    let owd1 := streakUpdate acc.opsWithoutDeath deathResult
    let deathLog :=
      match deathResult with
      | .Failed => "Died " ++ jsStr member.combatDeaths ++ " times"
      | .Passed => "Did not die (" ++ jsStr member.combatDeaths ++ ")"
      | .NoChange => "No logged death (" ++ jsStr member.combatDeaths ++ ")"
    let bolterResult := parseEvent member.bolters (!truthy op.config.countBolters)
    let owb1 := streakUpdate acc.opsWithoutBolter bolterResult
    let bolterLog :=
      match bolterResult with
      | .Failed => "Boltered " ++ jsStr member.bolters ++ " times"
      | .Passed => "Did not bolter (" ++ jsStr member.bolters ++ ")"
      | .NoChange => "No trap (" ++ jsStr member.bolters ++ ")"
    let display := jsStr member.displayName
    let deathStep := streakEmit owd1
    let bolterStep := streakEmit owb1
    let recD :=
      if deathStep.2 then
        { acc.overall with fiveOpsWithoutBolter := acc.overall.fiveOpsWithoutBolter + 1 }
      else acc.overall
    let deathEvents : List AchEvent :=
      if deathStep.2 then
        [{ opName := opName, displayName := display, kind := .NoDeathStreak
           reported := recD.fiveOpsWithoutBolter }]
      else []
    let recB :=
      if bolterStep.2 then
        { recD with fiveOpsWithoutDeath := recD.fiveOpsWithoutDeath + 1 }
      else recD
    let bolterEvents : List AchEvent :=
      if bolterStep.2 then
        [{ opName := opName, displayName := display, kind := .NoBolterStreak
           reported := recB.fiveOpsWithoutDeath }]
      else []
    let achievements :=
      (if deathStep.2 then "[FIVE OPS WITHOUT DEATH] " else "") ++
      (if bolterStep.2 then "[FIVE OPS WITHOUT BOLTER]" else "")
    let achDelta :=
      acc.achDelta ++
      (if deathStep.2 then
        "After " ++ opName ++ ", " ++ display ++ " has not died in 5 ops!\n"
      else "") ++
      (if bolterStep.2 then
        "After " ++ opName ++ ", " ++ display ++ " has not boltered in 5 ops!\n"
      else "")
    let opLogDeltas :=
      acc.opLogDeltas ++
      (deathEvents.map fun e =>
        (opName, "[FIVE OPS WITHOUT DEATH] " ++ e.displayName ++
          ". They now have this award " ++ toString e.reported ++ " times\n")) ++
      (bolterEvents.map fun e =>
        (opName, "[FIVE OPS WITHOUT BOLTER] " ++ e.displayName ++
          ". They now have this award " ++ toString e.reported ++ " times\n"))
    let wireStr := match member.wire with | some v => toStringVal v | none => "N/A"
    let remarksStr := match member.remarks with | some v => toStringVal v | none => "N/A"
    let line :=
      opName ++ ": " ++ deathLog ++ " " ++ bolterLog ++ " Wire: " ++ wireStr ++
      " Remarks: " ++ remarksStr ++ " " ++ achievements ++ "\n"
    { overall := { recB with history := recB.history ++ line }
      opsWithoutDeath := deathStep.1
      opsWithoutBolter := bolterStep.1
      achDelta := achDelta
      opLogDeltas := opLogDeltas
      events := acc.events ++ deathEvents ++ bolterEvents }

/-- The net effect of one parseMember call, accumulated over the ordered
block list from a fresh record and zeroed counters. -/
def parseMemberAcc (name : Option CellVal) (ops : List Op) : MemberAcc :=
  ops.foldl (processOp name) initMemberAcc

/-- Insertion-ordered JavaScript object update: an existing key is updated in
place, a new key is appended at the end. -/
def objSet {α : Type} : List (String × α) → String → α → List (String × α)
  | [], k, v => [(k, v)]
  | (k', v') :: rest, k, v =>
    if k' = k then (k', v) :: rest else (k', v') :: objSet rest k v

/-- JavaScript object read: first entry with the key. -/
def objGet {α : Type} : List (String × α) → String → Option α
  | [], _ => none
  | (k', v') :: rest, k => if k' = k then some v' else objGet rest k

/-- Mutable state of a GoogleSheetParser instance: this.members,
this.achievementHistory and this.opAchievementLog, all with JavaScript
object/string semantics. -/
structure ParserState where
  members : List (String × OverallMember)
  achievementHistory : String
  opAchievementLog : List (String × String)
deriving DecidableEq, Repr

def initialState : ParserState :=
  { members := [], achievementHistory := "", opAchievementLog := [] }

/-- parseMember of parseSheets.ts together with the achievement events it
emits: this.members[name] is (re)initialised and then receives the final
record, the achievement history grows by this call's lines, and each
per-block log line is appended to the entry of its block (an absent entry
would read as undefined, as in JavaScript). -/
def parseMemberEv (st : ParserState) (name : Option CellVal) (ops : List Op) :
    ParserState × List AchEvent :=
  let key := jsKeyStr name
  let acc := parseMemberAcc name ops
  ({ members := objSet st.members key acc.overall
     achievementHistory := st.achievementHistory ++ acc.achDelta
     opAchievementLog :=
       acc.opLogDeltas.foldl
         (fun l kt => objSet l kt.1 (((objGet l kt.1).getD "undefined") ++ kt.2))
         st.opAchievementLog }, acc.events)

def parseMember (st : ParserState) (name : Option CellVal) (ops : List Op) : ParserState :=
  (parseMemberEv st name ops).1

/-- The sheets run() skips by title. -/
def nonOpSheets : List String := ["Operations Record", "Awards Record"]

/-- The ordered block list of one run: every visible, non-excluded sheet
contributes its blocks in sheet order. -/
def opsOf (sheets : List Sheet) : List Op :=
  ((sheets.filter fun s => !s.hidden && !(nonOpSheets.contains s.title)).map Op.fromSheet).flatten

/-- First occurrence of each raw member name across all blocks, in insertion
order (the Set<string> of run(); raw values, since a missing name is added
as undefined). -/
def memberNamesOf (ops : List Op) : List (Option CellVal) :=
  ops.foldl (fun acc op =>
    op.members.foldl (fun acc m => if acc.contains m.uniqueName then acc else acc ++ [m.uniqueName]) acc) []

/-- The structured result type run() declares (SheetParseResult). -/
structure SheetParseResult where
  members : List (String × OverallMember)
  achievementHistory : String
  opAchievementLog : String
deriving DecidableEq, Repr

/-- Everything a run() call leaves behind: the parser state it mutated, the
filtered block list it serialises to ops.json, and its return value. -/
structure RunOutput where
  state : ParserState
  ops : List Op
  result : Option SheetParseResult

/-- run of parseSheets.ts: collect the blocks, reset each block's log entry
to its header, replay every member, filter out members with null/undefined
uniqueName, write the blocks out — and then return with no value: the bare
return on line 250 makes the construction of the SheetParseResult record
below it unreachable, so the declared result is never produced. -/
def run (st : ParserState) (sheets : List Sheet) : RunOutput :=
  let ops := opsOf sheets
  let names := memberNamesOf ops
  let st1 : ParserState :=
    { st with
      opAchievementLog :=
        ops.foldl (fun l op => objSet l op.name ("------ " ++ op.name ++ " ------\n"))
          st.opAchievementLog }
  let st2 := names.foldl (fun s n => parseMember s n ops) st1
  let finalOps := ops.map fun op =>
    { op with members := op.members.filter fun m => m.uniqueName.isSome }
  { state := st2, ops := finalOps, result := none }

/-- The achievement-history text one run appends, independent of the state it
starts from. -/
def runAchDelta (sheets : List Sheet) : String :=
  ((memberNamesOf (opsOf sheets)).map fun n => (parseMemberAcc n (opsOf sheets)).achDelta).foldl
    (· ++ ·) ""

/-! Concrete input grids used by the counterexamples and witnesses. -/

/-- A sheet with one block whose single member row has an empty-string name
cell: row 0 timeslot, row 1 header, row 2 the member row. -/
def sheetEmptyName : Sheet :=
  { title := "Week1"
    hidden := false
    rowCount := 3
    columnCount := 1
    cells := fun r c =>
      if c = 0 then
        if r = 0 then some (.str "TS")
        else if r = 1 then some (.str "Name")
        else if r = 2 then some (.str "")
        else none
      else none }

/-- Five consecutive blocks, one member row each, all for Maverick with zero
combat deaths; block k occupies rows 4k (timeslot), 4k+1 (header),
4k+2 (member row), 4k+3 (blank separator). -/
def sheetFiveBlocks : Sheet :=
  { title := "Week1"
    hidden := false
    rowCount := 19
    columnCount := 2
    cells := fun r c =>
      if c = 0 then
        if r % 4 = 0 then some (.str ("TS" ++ toString (r / 4)))
        else if r % 4 = 1 then some (.str "Name")
        else if r % 4 = 2 then some (.str "Maverick")
        else none
      else if c = 1 then
        if r % 4 = 1 then some (.str "Combat Deaths")
        else if r % 4 = 2 then some (.num 0)
        else none
      else none }

/-- A sheet whose only config-like cell has surrounding whitespace: its
trimmed case-insensitive text is "config", but its untrimmed text is not.
The row below it carries a "count bolters" override with value false. -/
def sheetTrimmedConfig : Sheet :=
  { title := "Week2"
    hidden := false
    rowCount := 2
    columnCount := 2
    cells := fun r c =>
      if r = 0 ∧ c = 0 then some (.str " Config ")
      else if r = 1 ∧ c = 0 then some (.str "count bolters")
      else if r = 1 ∧ c = 1 then some (.boolean false)
      else none }

/-- A sheet with a config anchor and two "count bolters" override rows with
different values, to exhibit the last-match-wins scan. -/
def sheetLastWins : Sheet :=
  { title := "Week3"
    hidden := false
    rowCount := 3
    columnCount := 2
    cells := fun r c =>
      if r = 0 ∧ c = 0 then some (.str "Config")
      else if r = 1 ∧ c = 0 then some (.str "Count Bolters")
      else if r = 1 ∧ c = 1 then some (.boolean false)
      else if r = 2 ∧ c = 0 then some (.str "count bolters")
      else if r = 2 ∧ c = 1 then some (.boolean true)
      else none }

/-- A sheet whose header sentinel sits in row 0, so the timeslot read goes to
row -1. -/
def sheetNameAtTop : Sheet :=
  { title := "Week4"
    hidden := false
    rowCount := 1
    columnCount := 1
    cells := fun r c => if r = 0 ∧ c = 0 then some (.str "Name") else none }

/-- A sheet whose header sentinel sits in row 1, with the timeslot above it. -/
def sheetNameAtRow1 : Sheet :=
  { title := "Week5"
    hidden := false
    rowCount := 2
    columnCount := 1
    cells := fun r c =>
      if r = 0 ∧ c = 0 then some (.str "TS")
      else if r = 1 ∧ c = 0 then some (.str "Name")
      else none }

/-- A one-row sheet whose single cell holds a name with surrounding
whitespace. -/
def sheetSpacedName : Sheet :=
  { title := "Week6"
    hidden := false
    rowCount := 1
    columnCount := 1
    cells := fun r c => if r = 0 ∧ c = 0 then some (.str " Maverick ") else none }

/-- A one-row sheet whose single cell holds a plain name. -/
def sheetPlainName : Sheet :=
  { title := "Week7"
    hidden := false
    rowCount := 1
    columnCount := 1
    cells := fun r c => if r = 0 ∧ c = 0 then some (.str "Maverick") else none }

/-- A column map that maps only the identity field, to column 0. -/
def mapNameOnly : ColumnMap :=
  { uniqueName := some 0
    callsign := none
    type := none
    bolters := none
    wire := none
    lsoGrade := none
    combatDeaths := none
    promotions := none
    remarks := none }

/-- A hand-built member record for Maverick with zero combat deaths, as
parseOpMemberRow produces it from a "Maverick"/0 row. -/
def mavMember : OpMember :=
  { uniqueName := some (.str "maverick")
    displayName := some (.str "Maverick")
    callsign := none
    type := none
    bolters := none
    wire := none
    lsoGrade := none
    combatDeaths := some (.num 0)
    promotions := none
    remarks := none }

/-- A hand-built block containing Maverick with zero combat deaths. -/
def mavOp (i : Nat) : Op :=
  { name := "Week1 TS" ++ toString i
    timeslot := some (.str ("TS" ++ toString i))
    config := defaultConfig
    members := [mavMember] }

/-- Five such blocks in a row. -/
def mavOps5 : List Op := [mavOp 0, mavOp 1, mavOp 2, mavOp 3, mavOp 4]

/-- The member record parseOpMemberRow produces from the empty-string name
row of sheetEmptyName. -/
def emptyNameMember : OpMember :=
  { uniqueName := some (.str "")
    displayName := none
    callsign := none
    type := none
    bolters := none
    wire := none
    lsoGrade := none
    combatDeaths := none
    promotions := none
    remarks := none }

/-- The block run() produces from sheetEmptyName after the final filter. -/
def emptyNameOp : Op :=
  { name := "Week1 TS"
    timeslot := some (.str "TS")
    config := defaultConfig
    members := [emptyNameMember] }

/-! Claim theorems. -/

/-- C2: run() never produces the structured SheetParseResult: the bare
return on line 250 of parseSheets.ts exits before the record on lines
260-264 is built, so the declared result is absent for every input grid
collection. -/
theorem c2_run_returns_no_result (st : ParserState) (sheets : List Sheet) :
    (run st sheets).result = none := rfl

/-- C4: parseEvent classification.  A disabled category yields NoChange for
every raw value; an empty, missing or unparsable value yields NoChange; a
parsed integer above zero yields Failed; a parsed integer at or below zero
yields Passed. -/
theorem c4_parseEvent_classification (v : Option CellVal) :
    parseEvent v true = .NoChange ∧
    parseEvent none false = .NoChange ∧
    parseEvent (some (.str "")) false = .NoChange ∧
    (jsParseInt v = none → parseEvent v false = .NoChange) ∧
    (∀ n : Int, jsParseInt v = some n → 0 < n → parseEvent v false = .Failed) ∧
    (∀ n : Int, jsParseInt v = some n → n ≤ 0 → parseEvent v false = .Passed) := by
  refine ⟨by simp [parseEvent], by decide, by decide, ?_, ?_, ?_⟩
  · intro h
    simp [parseEvent, h]
  · intro n h hn
    have hv1 : v ≠ none := by
      rintro rfl
      rw [show jsParseInt none = none from rfl] at h
      exact Option.noConfusion h
    have hv2 : v ≠ some (.str "") := by
      rintro rfl
      rw [show jsParseInt (some (.str "")) = none from rfl] at h
      exact Option.noConfusion h
    simp [parseEvent, h, hv1, hv2, hn]
  · intro n h hn
    have hv1 : v ≠ none := by
      rintro rfl
      rw [show jsParseInt none = none from rfl] at h
      exact Option.noConfusion h
    have hv2 : v ≠ some (.str "") := by
      rintro rfl
      rw [show jsParseInt (some (.str "")) = none from rfl] at h
      exact Option.noConfusion h
    simp [parseEvent, h, hv1, hv2, Int.not_lt.mpr hn]

/-- Witness for C4 at concrete raw values: "3" is ignored when the category
is disabled, "abc" is unparsable, "3" fails, "0" passes. -/
theorem c4_parseEvent_classification_witness :
    parseEvent (some (.str "3")) true = .NoChange ∧
    (jsParseInt (some (.str "abc")) = none ∧ parseEvent (some (.str "abc")) false = .NoChange) ∧
    (jsParseInt (some (.str "3")) = some 3 ∧ parseEvent (some (.str "3")) false = .Failed) ∧
    (jsParseInt (some (.str "0")) = some 0 ∧ parseEvent (some (.str "0")) false = .Passed) :=
  ⟨(c4_parseEvent_classification (some (.str "3"))).1,
   ⟨by decide, (c4_parseEvent_classification (some (.str "abc"))).2.2.2.1 (by decide)⟩,
   ⟨by decide, (c4_parseEvent_classification (some (.str "3"))).2.2.2.2.1 3 (by decide) (by decide)⟩,
   ⟨by decide, (c4_parseEvent_classification (some (.str "0"))).2.2.2.2.2 0 (by decide) (by decide)⟩⟩

/-- C10 counterexample: in sheetNameAtTop the sentinel "Name" sits in row 0,
so the block discovery of Op.fromSheet reads the timeslot at row -1 — a
negative row index, contradicting the claim that the timeslot read is in
bounds even when the sentinel appears in row 0. -/
theorem c10_counterexample :
    0 ∈ nameHeaderRows sheetNameAtTop ∧ ¬ (0 ≤ (0 : Int) - 1) :=
  ⟨by decide, by decide⟩

/-- C10 amended: the timeslot read at row r-1 performed for a sentinel found
at row r is within the grid bounds whenever r ≥ 1; a sentinel in row 0 makes
the read go out of bounds instead. -/
theorem c10_timeslot_read_in_bounds (s : Sheet) (r : Nat)
    (hr : r ∈ nameHeaderRows s) (h1 : 1 ≤ r) :
    0 ≤ (r : Int) - 1 ∧ (r : Int) - 1 < (s.rowCount : Int) := by
  have hlt : r < s.rowCount := by
    have := List.mem_filter.1 hr
    exact List.mem_range.1 this.1
  omega

/-- Witness for the amended C10 at sheetNameAtRow1, whose sentinel is in
row 1. -/
theorem c10_timeslot_read_in_bounds_witness :
    1 ∈ nameHeaderRows sheetNameAtRow1 ∧
    (0 ≤ (1 : Int) - 1 ∧ (1 : Int) - 1 < (sheetNameAtRow1.rowCount : Int)) :=
  ⟨by decide, c10_timeslot_read_in_bounds sheetNameAtRow1 1 (by decide) (by decide)⟩

/-- C6 counterexample: for the raw identity value " Maverick " the record's
identity key is the lowercased but untrimmed " maverick ", not the
lowercased trimmed form "maverick" the claim requires. -/
theorem c6_counterexample :
    (parseOpMemberRow sheetSpacedName 0 mapNameOnly).uniqueName = some (.str " maverick ") ∧
    strLower (strTrim " Maverick ") = "maverick" ∧
    (parseOpMemberRow sheetSpacedName 0 mapNameOnly).uniqueName ≠
      some (.str (strLower (strTrim " Maverick "))) :=
  ⟨by decide, by decide, by decide⟩

/-- C6 amended: for every row whose identity field is a non-empty string,
parseOpMemberRow sets the identity key to the lowercased (but not trimmed)
raw value and preserves the original value, casing included, as the display
name. -/
theorem c6_member_row_normalisation (s : Sheet) (row col : Nat) (mapping : ColumnMap)
    (raw : String)
    (hmap : mapping.uniqueName = some col)
    (hcell : s.cells row col = some (.str raw))
    (hraw : raw ≠ "") :
    (parseOpMemberRow s row mapping).uniqueName = some (.str (strLower raw)) ∧
    (parseOpMemberRow s row mapping).displayName = some (.str raw) := by
  simp [parseOpMemberRow, readField, hmap, hcell, truthy, truthyCell, lowerVal, hraw]

/-- Witness for the amended C6 at the raw value "Maverick". -/
theorem c6_member_row_normalisation_witness :
    (parseOpMemberRow sheetPlainName 0 mapNameOnly).uniqueName = some (.str (strLower "Maverick")) ∧
    (parseOpMemberRow sheetPlainName 0 mapNameOnly).displayName = some (.str "Maverick") :=
  c6_member_row_normalisation sheetPlainName 0 0 mapNameOnly "Maverick" rfl (by decide) (by decide)

/-- C5 counterexample: the final filter of run() removes only members whose
uniqueName is null/undefined, so a member whose identity key is the empty
string survives it: sheetEmptyName yields a block still containing a record
with uniqueName "". -/
theorem c5_counterexample :
    ∃ op ∈ (run initialState [sheetEmptyName]).ops, ∃ m ∈ op.members,
      m.uniqueName = some (.str "") := by decide

/-- C5 amended: after the final filter pass of run(), no block contains a
member record whose uniqueName is missing (null/undefined); records whose
identity key is the empty string are not removed. -/
theorem c5_no_missing_name_after_filter (st : ParserState) (sheets : List Sheet)
    (op : Op) (m : OpMember)
    (hop : op ∈ (run st sheets).ops) (hm : m ∈ op.members) :
    m.uniqueName ≠ none := by
  simp only [run] at hop
  rcases List.mem_map.1 hop with ⟨op0, _, rfl⟩
  have hp := List.of_mem_filter hm
  exact Option.isSome_iff_ne_none.1 hp

/-- Witness for the amended C5 at the block run() produces from
sheetEmptyName. -/
theorem c5_no_missing_name_after_filter_witness :
    emptyNameOp ∈ (run initialState [sheetEmptyName]).ops ∧
    emptyNameMember ∈ emptyNameOp.members ∧
    emptyNameMember.uniqueName ≠ none :=
  ⟨by decide, by decide,
   c5_no_missing_name_after_filter initialState [sheetEmptyName] emptyNameOp emptyNameMember
     (by decide) (by decide)⟩

/-! Streak-counter lemmas for C3 and C9. -/

/-- After the threshold check the counter is always at most 4. -/
lemma streakEmit_fst_le (c : Nat) : (streakEmit c).1 ≤ 4 := by
  unfold streakEmit
  split <;> omega

/-- The emission count of a replay is additive in the starting accumulator. -/
lemma streakRun_foldl_shift (l : List Change) :
    ∀ c e, l.foldl streakRunStep (c, e) =
      ((l.foldl streakRunStep (c, 0)).1, e + (l.foldl streakRunStep (c, 0)).2) := by
  induction l with
  | nil => intro c e; simp
  | cons r t ih =>
    intro c e
    simp only [List.foldl_cons, streakRunStep]
    have h1 := ih ((streakStep c r).1) (e + if (streakStep c r).2 then 1 else 0)
    have h2 := ih ((streakStep c r).1) (0 + if (streakStep c r).2 then 1 else 0)
    rw [h1, h2]
    simp only [Prod.mk.injEq, true_and]
    omega

/-- A Failed-free replay that cannot reach the threshold emits nothing and
just accumulates its Passed count. -/
lemma streakRun_no_emit (l : List Change) :
    ∀ c : Nat, Change.Failed ∉ l → c + l.count .Passed ≤ 4 →
      streakRun c l = (c + l.count .Passed, 0) := by
  induction l with
  | nil => intro c _ _; simp [streakRun]
  | cons r t ih =>
    intro c hF h
    have hFr : r ≠ .Failed := fun hr => hF (hr ▸ List.mem_cons_self r t)
    have hFt : Change.Failed ∉ t := fun ht => hF (List.mem_cons_of_mem r ht)
    cases r with
    | Failed => exact absurd rfl hFr
    | NoChange =>
      have hcount : (Change.NoChange :: t).count .Passed = t.count .Passed := by
        simp [List.count_cons]
      rw [hcount] at h ⊢
      have hc : ¬ 5 ≤ c := by omega
      have : streakRun c (.NoChange :: t) = streakRun c t := by
        simp [streakRun, streakRunStep, streakStep, streakUpdate, streakEmit, hc]
      rw [this]
      exact ih c hFt h
    | Passed =>
      have hcount : (Change.Passed :: t).count .Passed = t.count .Passed + 1 := by
        simp [List.count_cons]
      rw [hcount] at h ⊢
      have hc : ¬ 5 ≤ c + 1 := by omega
      have : streakRun c (.Passed :: t) = streakRun (c + 1) t := by
        simp [streakRun, streakRunStep, streakStep, streakUpdate, streakEmit, hc]
      rw [this, ih (c + 1) hFt (by omega)]
      congr 1
      omega

/-- A Failed-free replay whose Passed count exactly completes the threshold
emits exactly one achievement and ends with the counter reset to 0. -/
lemma streakRun_one_emit (l : List Change) :
    ∀ c : Nat, Change.Failed ∉ l → c ≤ 4 → c + l.count .Passed = 5 →
      streakRun c l = (0, 1) := by
  induction l with
  | nil => intro c _ hc h; simp at h; omega
  | cons r t ih =>
    intro c hF hc h
    have hFr : r ≠ .Failed := fun hr => hF (hr ▸ List.mem_cons_self r t)
    have hFt : Change.Failed ∉ t := fun ht => hF (List.mem_cons_of_mem r ht)
    cases r with
    | Failed => exact absurd rfl hFr
    | NoChange =>
      have hcount : (Change.NoChange :: t).count .Passed = t.count .Passed := by
        simp [List.count_cons]
      rw [hcount] at h
      have hlt : ¬ 5 ≤ c := by omega
      have : streakRun c (.NoChange :: t) = streakRun c t := by
        simp [streakRun, streakRunStep, streakStep, streakUpdate, streakEmit, hlt]
      rw [this]
      exact ih c hFt hc h
    | Passed =>
      have hcount : (Change.Passed :: t).count .Passed = t.count .Passed + 1 := by
        simp [List.count_cons]
      rw [hcount] at h
      by_cases h4 : c = 4
      · subst h4
        have hcnt0 : t.count .Passed = 0 := by omega
        have step5 : streakRunStep (4, 0) Change.Passed = (0, 1) := by
          simp [streakRunStep, streakStep, streakUpdate, streakEmit]
        have h1 : streakRun 4 (.Passed :: t) = t.foldl streakRunStep (0, 1) := by
          simp [streakRun, step5]
        have hrest : t.foldl streakRunStep (0, 0) = ((0 : Nat), (0 : Nat)) := by
          have h2 := streakRun_no_emit t 0 hFt (by omega)
          rw [hcnt0] at h2
          simpa [streakRun] using h2
        rw [h1, streakRun_foldl_shift, hrest]
        simp
      · have hlt : ¬ 5 ≤ c + 1 := by omega
        have : streakRun c (.Passed :: t) = streakRun (c + 1) t := by
          simp [streakRun, streakRunStep, streakStep, streakUpdate, streakEmit, hlt]
        rw [this]
        exact ih (c + 1) hFt (by omega) (by omega)

/-- C3: a rolling counter started at 0 that receives 5 Passed classifications
with no Failed among them emits exactly one achievement and ends reset to 0;
and a Failed classification at counter 4 resets the counter to 0 without
emitting. -/
theorem c3_threshold_emission (l : List Change)
    (h5 : l.count .Passed = 5) (hF : Change.Failed ∉ l) :
    streakRun 0 l = (0, 1) ∧ streakStep 4 .Failed = (0, false) :=
  ⟨streakRun_one_emit l 0 hF (Nat.zero_le 4) (by simpa using h5), rfl⟩

/-- Witness for C3 at the concrete sequence of five Passed classifications. -/
theorem c3_threshold_emission_witness :
    (List.replicate 5 Change.Passed).count .Passed = 5 ∧
    Change.Failed ∉ List.replicate 5 Change.Passed ∧
    streakRun 0 (List.replicate 5 Change.Passed) = (0, 1) ∧
    streakStep 4 .Failed = (0, false) :=
  ⟨by decide, by decide,
   (c3_threshold_emission (List.replicate 5 Change.Passed) (by decide) (by decide)).1,
   (c3_threshold_emission (List.replicate 5 Change.Passed) (by decide) (by decide)).2⟩

/-- One parseMember block step keeps both rolling counters at most 4. -/
lemma processOp_counters_le (name : Option CellVal) (acc : MemberAcc) (op : Op)
    (hd : acc.opsWithoutDeath ≤ 4) (hb : acc.opsWithoutBolter ≤ 4) :
    (processOp name acc op).opsWithoutDeath ≤ 4 ∧
    (processOp name acc op).opsWithoutBolter ≤ 4 := by
  unfold processOp
  cases op.getMember name with
  | none => exact ⟨hd, hb⟩
  | some member => exact ⟨streakEmit_fst_le _, streakEmit_fst_le _⟩

/-- C9: after any sequence of blocks is processed for a participant, both
rolling counters lie between 0 and 4 inclusive (every prefix of a replay is
itself such a sequence, so this bounds the counters at every block
boundary). -/
theorem c9_counters_bounded (name : Option CellVal) (ops : List Op) :
    (parseMemberAcc name ops).opsWithoutDeath ≤ 4 ∧
    (parseMemberAcc name ops).opsWithoutBolter ≤ 4 := by
  have main : ∀ (l : List Op) (acc : MemberAcc),
      acc.opsWithoutDeath ≤ 4 → acc.opsWithoutBolter ≤ 4 →
      (l.foldl (processOp name) acc).opsWithoutDeath ≤ 4 ∧
      (l.foldl (processOp name) acc).opsWithoutBolter ≤ 4 := by
    intro l
    induction l with
    | nil => intro acc hd hb; exact ⟨hd, hb⟩
    | cons op t ih =>
      intro acc hd hb
      have step := processOp_counters_le name acc op hd hb
      exact ih (processOp name acc op) step.1 step.2
  exact main ops initMemberAcc (by decide) (by decide)

/-! Config-resolution lemmas for C7. -/

/-- A config-scan row that does not match "count bolters" leaves that flag
unchanged. -/
lemma configScanStep_countBolters_no_match (s : Sheet) (col row : Nat) (cfg : OpConfig)
    (h : configKeyMatch s col "count bolters" row = false) :
    (configScanStep s col cfg row).countBolters = cfg.countBolters := by
  cases hc : s.cells row col with
  | none => simp [configScanStep, hc]
  | some v =>
    simp only [configKeyMatch, hc] at h
    simp only [configScanStep, hc]
    by_cases ht : truthyCell v = false
    · simp [ht]
    · have ht' : truthyCell v = true := by revert ht; cases truthyCell v <;> simp
      rw [ht', Bool.true_and] at h
      have hne : ¬ strLower (toStringVal v) = "count bolters" := by
        intro he
        rw [he] at h
        simp at h
      rw [if_neg ht]
      simp only [if_neg hne]
      split
      · rfl
      · rfl

/-- A config-scan row that matches "count bolters" sets that flag to the raw
value of the adjacent column. -/
lemma configScanStep_countBolters_match (s : Sheet) (col row : Nat) (cfg : OpConfig)
    (h : configKeyMatch s col "count bolters" row = true) :
    (configScanStep s col cfg row).countBolters = s.cells row (col + 1) := by
  cases hc : s.cells row col with
  | none =>
    simp only [configKeyMatch, hc] at h
    exact Bool.noConfusion h
  | some v =>
    simp only [configKeyMatch, hc] at h
    rw [Bool.and_eq_true] at h
    have hkey : strLower (toStringVal v) = "count bolters" := by
      have h2 := h.2
      simpa using h2
    have hne : ¬ strLower (toStringVal v) = "count deaths" := by
      rw [hkey]; decide
    have ht : ¬ truthyCell v = false := by rw [h.1]; simp
    simp only [configScanStep, hc]
    rw [if_neg ht]
    simp only [if_pos hkey, if_neg hne]

/-- A config-scan row that does not match "count deaths" leaves that flag
unchanged. -/
lemma configScanStep_countDeaths_no_match (s : Sheet) (col row : Nat) (cfg : OpConfig)
    (h : configKeyMatch s col "count deaths" row = false) :
    (configScanStep s col cfg row).countDeaths = cfg.countDeaths := by
  cases hc : s.cells row col with
  | none => simp [configScanStep, hc]
  | some v =>
    simp only [configKeyMatch, hc] at h
    simp only [configScanStep, hc]
    by_cases ht : truthyCell v = false
    · simp [ht]
    · have ht' : truthyCell v = true := by revert ht; cases truthyCell v <;> simp
      rw [ht', Bool.true_and] at h
      have hne : ¬ strLower (toStringVal v) = "count deaths" := by
        intro he
        rw [he] at h
        simp at h
      rw [if_neg ht]
      simp only [if_neg hne]
      split
      · rfl
      · rfl

/-- A config-scan row that matches "count deaths" sets that flag to the raw
value of the adjacent column. -/
lemma configScanStep_countDeaths_match (s : Sheet) (col row : Nat) (cfg : OpConfig)
    (h : configKeyMatch s col "count deaths" row = true) :
    (configScanStep s col cfg row).countDeaths = s.cells row (col + 1) := by
  cases hc : s.cells row col with
  | none =>
    simp only [configKeyMatch, hc] at h
    exact Bool.noConfusion h
  | some v =>
    simp only [configKeyMatch, hc] at h
    rw [Bool.and_eq_true] at h
    have hkey : strLower (toStringVal v) = "count deaths" := by
      have h2 := h.2
      simpa using h2
    have ht : ¬ truthyCell v = false := by rw [h.1]; simp
    simp only [configScanStep, hc]
    rw [if_neg ht]
    simp only [if_pos hkey]

/-- Over any row list, the scan leaves countBolters at the value determined
by the last row matching "count bolters" (or unchanged when none matches). -/
lemma configScan_foldl_countBolters (s : Sheet) (col : Nat) (rows : List Nat) :
    ∀ cfg : OpConfig,
      (rows.foldl (configScanStep s col) cfg).countBolters =
        (match (rows.filter (configKeyMatch s col "count bolters")).getLast? with
         | some row => s.cells row (col + 1)
         | none => cfg.countBolters) := by
  induction rows with
  | nil => intro cfg; rfl
  | cons row t ih =>
    intro cfg
    simp only [List.foldl_cons]
    rw [ih]
    by_cases hm : configKeyMatch s col "count bolters" row = true
    · rw [List.filter_cons_of_pos hm]
      cases hfilt : t.filter (configKeyMatch s col "count bolters") with
      | nil =>
        simp only [List.getLast?_nil, List.getLast?_singleton]
        exact configScanStep_countBolters_match s col row cfg hm
      | cons x xs =>
        rw [List.getLast?_cons_cons]
        cases hy : (x :: xs).getLast? with
        | none => exact absurd (List.getLast?_eq_none_iff.1 hy) (by simp)
        | some y => rfl
    · have hm' : configKeyMatch s col "count bolters" row = false := by
        revert hm; cases configKeyMatch s col "count bolters" row <;> simp
      rw [List.filter_cons_of_neg (by simp [hm'])]
      rw [configScanStep_countBolters_no_match s col row cfg hm']

/-- Over any row list, the scan leaves countDeaths at the value determined
by the last row matching "count deaths" (or unchanged when none matches). -/
lemma configScan_foldl_countDeaths (s : Sheet) (col : Nat) (rows : List Nat) :
    ∀ cfg : OpConfig,
      (rows.foldl (configScanStep s col) cfg).countDeaths =
        (match (rows.filter (configKeyMatch s col "count deaths")).getLast? with
         | some row => s.cells row (col + 1)
         | none => cfg.countDeaths) := by
  induction rows with
  | nil => intro cfg; rfl
  | cons row t ih =>
    intro cfg
    simp only [List.foldl_cons]
    rw [ih]
    by_cases hm : configKeyMatch s col "count deaths" row = true
    · rw [List.filter_cons_of_pos hm]
      cases hfilt : t.filter (configKeyMatch s col "count deaths") with
      | nil =>
        simp only [List.getLast?_nil, List.getLast?_singleton]
        exact configScanStep_countDeaths_match s col row cfg hm
      | cons x xs =>
        rw [List.getLast?_cons_cons]
        cases hy : (x :: xs).getLast? with
        | none => exact absurd (List.getLast?_eq_none_iff.1 hy) (by simp)
        | some y => rfl
    · have hm' : configKeyMatch s col "count deaths" row = false := by
        revert hm; cases configKeyMatch s col "count deaths" row <;> simp
      rw [List.filter_cons_of_neg (by simp [hm'])]
      rw [configScanStep_countDeaths_no_match s col row cfg hm']

/-- A grid without any cell passing the anchor test has no config anchor. -/
lemma findConfigAnchor_eq_none (s : Sheet)
    (h : ∀ r ∈ List.range s.rowCount, ∀ c ∈ List.range s.columnCount,
      configCellMatch (s.cells r c) = false) :
    findConfigAnchor s = none := by
  unfold findConfigAnchor
  rw [List.findSome?_eq_none_iff]
  intro row hrow
  rw [Option.map_eq_none']
  rw [List.find?_eq_none]
  intro col hcol
  simp [h row hrow col hcol]

/-- C7 counterexample: sheetTrimmedConfig has a cell (" Config " at (0,0))
whose case-insensitive trimmed text equals "config", and below it in the
same column a "count bolters" key whose adjacent value is the boolean false —
so by the claim the resolved countBolters flag should be false.  But the
source matches the anchor without trimming, finds no anchor here, and
resolves the default instead: countBolters stays true. -/
theorem c7_counterexample :
    strLower (strTrim (jsStr (sheetTrimmedConfig.cells 0 0))) = "config" ∧
    configKeyMatch sheetTrimmedConfig 0 "count bolters" 1 = true ∧
    sheetTrimmedConfig.cells 1 1 = some (.boolean false) ∧
    (getOpConfig sheetTrimmedConfig).countBolters = some (.boolean true) ∧
    (getOpConfig sheetTrimmedConfig).countBolters ≠ some (.boolean false) :=
  ⟨by decide, by decide, by decide, by decide, by decide⟩

/-- C7 amended: anchor detection is case-insensitive but untrimmed.  With
that correction: a grid with no cell whose case-insensitive (untrimmed) text
is "config" resolves to the default config; and when the anchor is found,
every row below it in the anchor column is scanned to the end of the grid,
each matching key row setting its flag to the raw value of the adjacent
column, so the last matching row wins. -/
theorem c7_config_resolution (s : Sheet) (configRow configColumn : Nat) :
    ((∀ r ∈ List.range s.rowCount, ∀ c ∈ List.range s.columnCount,
        configCellMatch (s.cells r c) = false) → getOpConfig s = defaultConfig) ∧
    (findConfigAnchor s = some (configRow, configColumn) →
      (getOpConfig s).countBolters =
        (match lastKeyRow s configRow configColumn "count bolters" with
         | some row => s.cells row (configColumn + 1)
         | none => defaultConfig.countBolters) ∧
      (getOpConfig s).countDeaths =
        (match lastKeyRow s configRow configColumn "count deaths" with
         | some row => s.cells row (configColumn + 1)
         | none => defaultConfig.countDeaths)) := by
  constructor
  · intro h
    unfold getOpConfig
    rw [findConfigAnchor_eq_none s h]
  · intro h
    simp only [getOpConfig, h, lastKeyRow]
    exact ⟨configScan_foldl_countBolters s configColumn _ defaultConfig,
           configScan_foldl_countDeaths s configColumn _ defaultConfig⟩

/-- Witness for C7: sheetEmptyName has no config cell and resolves to the
default; sheetLastWins has its anchor at (0,0) and two "count bolters" rows,
of which the last (row 2, adjacent value true) wins. -/
theorem c7_config_resolution_witness :
    getOpConfig sheetEmptyName = defaultConfig ∧
    ((getOpConfig sheetLastWins).countBolters =
      (match lastKeyRow sheetLastWins 0 0 "count bolters" with
       | some row => sheetLastWins.cells row 1
       | none => defaultConfig.countBolters) ∧
     (getOpConfig sheetLastWins).countDeaths =
      (match lastKeyRow sheetLastWins 0 0 "count deaths" with
       | some row => sheetLastWins.cells row 1
       | none => defaultConfig.countDeaths)) ∧
    lastKeyRow sheetLastWins 0 0 "count bolters" = some 2 ∧
    (getOpConfig sheetLastWins).countBolters = some (.boolean true) :=
  ⟨(c7_config_resolution sheetEmptyName 0 0).1 (by decide),
   (c7_config_resolution sheetLastWins 0 0).2 (by decide),
   by decide, by decide⟩

/-! Achievement-event accounting for C1. -/

/-- A well-accounted event log: every event's reported award count equals the
number of events of its own category up to and including itself. -/
def GoodLog (l : List AchEvent) : Prop :=
  ∀ (i : Nat) (e : AchEvent), l[i]? = some e →
    e.reported = countKind e.kind (l.take (i + 1))

lemma countKind_append (k : AchKind) (l l' : List AchEvent) :
    countKind k (l ++ l') = countKind k l + countKind k l' := by
  simp [countKind, List.filter_append]

lemma countKind_nil (k : AchKind) : countKind k [] = 0 := rfl

lemma countKind_cons (k : AchKind) (e : AchEvent) (l : List AchEvent) :
    countKind k (e :: l) = (if e.kind = k then 1 else 0) + countKind k l := by
  unfold countKind
  rw [List.filter_cons]
  by_cases h : e.kind = k
  · simp [h]
    omega
  · simp [h]

/-- Appending one event whose reported count continues its own category's
count preserves a well-accounted log. -/
lemma GoodLog_append (l : List AchEvent) (e : AchEvent)
    (hl : GoodLog l) (he : e.reported = countKind e.kind l + 1) :
    GoodLog (l ++ [e]) := by
  intro i x hx
  by_cases hi : i < l.length
  · rw [List.getElem?_append, if_pos hi] at hx
    rw [List.take_append_of_le_length (by omega : i + 1 ≤ l.length)]
    exact hl i x hx
  · have hi2 : i < l.length + 1 := by
      by_contra hgt
      rw [List.getElem?_eq_none
        (by simp only [List.length_append, List.length_singleton]; omega)] at hx
      exact Option.noConfusion hx
    have hieq : i = l.length := by omega
    subst hieq
    have hxe : x = e := by
      rw [List.getElem?_append_right (Nat.le_refl _)] at hx
      simp at hx
      exact hx.symm
    subst hxe
    rw [List.take_of_length_le (by simp)]
    rw [countKind_append, countKind_cons, countKind_nil]
    simpa using he

/-- The bookkeeping invariant of one parseMember replay: the
fiveOpsWithoutBolter field counts the NoDeathStreak events emitted so far,
the fiveOpsWithoutDeath field counts the NoBolterStreak events, and the log
is well accounted. -/
def C1Inv (acc : MemberAcc) : Prop :=
  acc.overall.fiveOpsWithoutBolter = countKind .NoDeathStreak acc.events ∧
  acc.overall.fiveOpsWithoutDeath = countKind .NoBolterStreak acc.events ∧
  GoodLog acc.events

lemma c1inv_init : C1Inv initMemberAcc := by
  refine ⟨rfl, rfl, ?_⟩
  intro i e he
  simp [initMemberAcc] at he

/-- One block step preserves the bookkeeping invariant. -/
lemma c1inv_processOp (name : Option CellVal) (acc : MemberAcc) (op : Op)
    (h : C1Inv acc) : C1Inv (processOp name acc op) := by
  obtain ⟨h1, h2, h3⟩ := h
  unfold processOp
  cases hmem : op.getMember name with
  | none => exact ⟨h1, h2, h3⟩
  | some member =>
    simp only
    by_cases hd : (streakEmit
        (streakUpdate acc.opsWithoutDeath
          (parseEvent member.combatDeaths (!truthy op.config.countDeaths)))).2
    · by_cases hb : (streakEmit
          (streakUpdate acc.opsWithoutBolter
            (parseEvent member.bolters (!truthy op.config.countBolters)))).2
      · refine ⟨?_, ?_, ?_⟩
        · simp [hd, hb, countKind_append, countKind_cons, countKind_nil, h1]
        · simp [hd, hb, countKind_append, countKind_cons, countKind_nil, h2]
        · simp only [hd, hb, if_true]
          apply GoodLog_append
          · apply GoodLog_append _ _ h3
            simp [h1]
          · simp [countKind_append, countKind_cons, countKind_nil, h2]
      · refine ⟨?_, ?_, ?_⟩
        · simp [hd, hb, countKind_append, countKind_cons, countKind_nil, h1]
        · simp [hd, hb, countKind_append, countKind_cons, countKind_nil, h2]
        · simp only [hd, hb, if_true, Bool.false_eq_true, if_false, List.append_nil]
          apply GoodLog_append _ _ h3
          simp [h1]
    · by_cases hb : (streakEmit
          (streakUpdate acc.opsWithoutBolter
            (parseEvent member.bolters (!truthy op.config.countBolters)))).2
      · refine ⟨?_, ?_, ?_⟩
        · simp [hd, hb, countKind_append, countKind_cons, countKind_nil, h1]
        · simp [hd, hb, countKind_append, countKind_cons, countKind_nil, h2]
        · simp only [hd, hb, if_true, Bool.false_eq_true, if_false, List.append_nil]
          apply GoodLog_append _ _ h3
          simp [h2]
      · refine ⟨?_, ?_, ?_⟩
        · simp [hd, hb, countKind_append, countKind_cons, countKind_nil, h1]
        · simp [hd, hb, countKind_append, countKind_cons, countKind_nil, h2]
        · simp only [hd, hb, Bool.false_eq_true, if_false, List.append_nil]
          exact h3

lemma c1inv_parseMemberAcc (name : Option CellVal) (ops : List Op) :
    C1Inv (parseMemberAcc name ops) := by
  have main : ∀ (l : List Op) (acc : MemberAcc), C1Inv acc →
      C1Inv (l.foldl (processOp name) acc) := by
    intro l
    induction l with
    | nil => intro acc h; exact h
    | cons op t ih => intro acc h; exact ih _ (c1inv_processOp name acc op h)
  exact main ops initMemberAcc c1inv_init

/-- C1: in the event stream parseMember emits for a participant, every
achievement event reports exactly the participant's cumulative number of
awards of that same category, the event itself included — NoDeathStreak
events report the running NoDeathStreak total and NoBolterStreak events the
running NoBolterStreak total (the source keeps these totals in the
swapped-named fields fiveOpsWithoutBolter and fiveOpsWithoutDeath
respectively, but the number it increments and prints is the correct
per-category cumulative count). -/
theorem c1_reported_award_counts (st : ParserState) (name : Option CellVal)
    (ops : List Op) (i : Nat) (e : AchEvent)
    (h : ((parseMemberEv st name ops).2)[i]? = some e) :
    e.reported = countKind e.kind (((parseMemberEv st name ops).2).take (i + 1)) := by
  have hev : (parseMemberEv st name ops).2 = (parseMemberAcc name ops).events := rfl
  rw [hev] at h ⊢
  exact (c1inv_parseMemberAcc name ops).2.2 i e h

/-- The single event of the five-block Maverick replay. -/
def mavDeathEvent : AchEvent :=
  { opName := "Week1 TS4", displayName := "Maverick", kind := .NoDeathStreak, reported := 1 }

/-- Witness for C1: in the five-block replay the emitted NoDeathStreak event
reports 1, the cumulative NoDeathStreak count at that point. -/
theorem c1_reported_award_counts_witness :
    ((parseMemberEv initialState (some (.str "maverick")) mavOps5).2)[0]? = some mavDeathEvent ∧
    mavDeathEvent.reported =
      countKind mavDeathEvent.kind
        (((parseMemberEv initialState (some (.str "maverick")) mavOps5).2).take 1) :=
  ⟨by decide,
   c1_reported_award_counts initialState (some (.str "maverick")) mavOps5 0 mavDeathEvent
     (by decide)⟩

/-! Object-update algebra for C8. -/

/-- Keys of an association list. -/
def objKeys {α : Type} (m : List (String × α)) : List String :=
  m.map Prod.fst

/-- Batch object update, in order. -/
def setAll {α : Type} (m : List (String × α)) (kvs : List (String × α)) :
    List (String × α) :=
  kvs.foldl (fun acc kv => objSet acc kv.1 kv.2) m

lemma objSet_objSet_same {α : Type} (m : List (String × α)) (k : String) (v w : α) :
    objSet (objSet m k v) k w = objSet m k w := by
  induction m with
  | nil => simp [objSet]
  | cons p rest ih =>
    obtain ⟨k0, v0⟩ := p
    by_cases h : k0 = k
    · simp [objSet, h]
    · simp [objSet, h, ih]

lemma objGet_objSet_self {α : Type} (m : List (String × α)) (k : String) (v : α) :
    objGet (objSet m k v) k = some v := by
  induction m with
  | nil => simp [objSet, objGet]
  | cons p rest ih =>
    obtain ⟨k0, v0⟩ := p
    by_cases h : k0 = k
    · simp [objSet, objGet, h]
    · simp [objSet, objGet, h, ih]

lemma objGet_objSet_ne {α : Type} (m : List (String × α)) (k j : String) (v : α)
    (h : j ≠ k) : objGet (objSet m k v) j = objGet m j := by
  induction m with
  | nil => simp [objSet, objGet, Ne.symm h]
  | cons p rest ih =>
    obtain ⟨k0, v0⟩ := p
    by_cases h0 : k0 = k
    · subst h0
      simp [objSet, objGet, Ne.symm h]
    · simp [objSet, objGet, h0, ih]

lemma mem_objKeys_objSet_self {α : Type} (m : List (String × α)) (k : String) (v : α) :
    k ∈ objKeys (objSet m k v) := by
  induction m with
  | nil => simp [objSet, objKeys]
  | cons p rest ih =>
    obtain ⟨k0, v0⟩ := p
    by_cases h : k0 = k
    · simp [objSet, objKeys, h]
    · simp only [objSet, if_neg h, objKeys, List.map_cons, List.mem_cons]
      exact Or.inr ih

lemma mem_objKeys_objSet_of_mem {α : Type} (m : List (String × α)) (k j : String) (v : α)
    (h : j ∈ objKeys m) : j ∈ objKeys (objSet m k v) := by
  induction m with
  | nil => simp [objKeys] at h
  | cons p rest ih =>
    obtain ⟨k0, v0⟩ := p
    simp only [objKeys, List.map_cons, List.mem_cons] at h
    by_cases h0 : k0 = k
    · simp only [objSet, if_pos h0, objKeys, List.map_cons, List.mem_cons]
      exact h
    · simp only [objSet, if_neg h0, objKeys, List.map_cons, List.mem_cons]
      rcases h with h | h
      · exact Or.inl h
      · exact Or.inr (ih h)

lemma mem_objKeys_setAll {α : Type} (kvs : List (String × α)) :
    ∀ (m : List (String × α)) (j : String), j ∈ objKeys m → j ∈ objKeys (setAll m kvs) := by
  induction kvs with
  | nil => intro m j h; exact h
  | cons kv rest ih =>
    intro m j h
    exact ih (objSet m kv.1 kv.2) j (mem_objKeys_objSet_of_mem m kv.1 j kv.2 h)

lemma objSet_comm {α : Type} (m : List (String × α)) (k1 k2 : String) (v1 v2 : α)
    (hne : k1 ≠ k2) (hk : k1 ∈ objKeys m) :
    objSet (objSet m k1 v1) k2 v2 = objSet (objSet m k2 v2) k1 v1 := by
  induction m with
  | nil => simp [objKeys] at hk
  | cons p rest ih =>
    obtain ⟨k0, v0⟩ := p
    by_cases h1 : k0 = k1
    · subst h1
      simp [objSet, hne, Ne.symm hne]
    · simp only [objKeys, List.map_cons, List.mem_cons] at hk
      rcases hk with hk | hk
      · exact absurd hk.symm h1
      · by_cases h2 : k0 = k2
        · subst h2
          simp [objSet, h1]
        · simp [objSet, h1, h2, ih hk]

lemma objGet_setAll_not_mem {α : Type} (kvs : List (String × α)) :
    ∀ (m : List (String × α)) (k : String), k ∉ objKeys kvs →
      objGet (setAll m kvs) k = objGet m k := by
  induction kvs with
  | nil => intro m k _; rfl
  | cons kv rest ih =>
    intro m k h
    simp only [objKeys, List.map_cons, List.mem_cons, not_or] at h
    have step := ih (objSet m kv.1 kv.2) k (by simp [objKeys, h.2])
    rw [show setAll m (kv :: rest) = setAll (objSet m kv.1 kv.2) rest from rfl, step]
    exact objGet_objSet_ne m kv.1 k kv.2 h.1

lemma objSet_objGet_self {α : Type} (m : List (String × α)) (k : String) (v : α)
    (h : objGet m k = some v) : objSet m k v = m := by
  induction m with
  | nil => simp [objGet] at h
  | cons p rest ih =>
    obtain ⟨k0, v0⟩ := p
    by_cases h0 : k0 = k
    · simp only [objGet, if_pos h0] at h
      obtain rfl : v0 = v := Option.some.inj h
      simp [objSet, h0]
    · simp only [objGet, if_neg h0] at h
      simp [objSet, h0, ih h]

lemma setAll_objSet_absorb {α : Type} (kvs : List (String × α)) :
    ∀ (m : List (String × α)) (k : String) (v : α),
      k ∈ objKeys m → k ∈ objKeys kvs →
      setAll (objSet m k v) kvs = setAll m kvs := by
  induction kvs with
  | nil => intro m k v _ hkv; simp [objKeys] at hkv
  | cons kv rest ih =>
    intro m k v hm hkv
    obtain ⟨k0, v0⟩ := kv
    by_cases h0 : k0 = k
    · subst h0
      show setAll (objSet (objSet m k0 v) k0 v0) rest = setAll (objSet m k0 v0) rest
      rw [objSet_objSet_same]
    · simp only [objKeys, List.map_cons, List.mem_cons] at hkv
      rcases hkv with hkv | hkv
      · exact absurd hkv.symm h0
      · show setAll (objSet (objSet m k v) k0 v0) rest = setAll (objSet m k0 v0) rest
        rw [objSet_comm m k k0 v v0 (Ne.symm h0) hm]
        exact ih (objSet m k0 v0) k v (mem_objKeys_objSet_of_mem m k0 k v0 hm) hkv

/-- Re-applying the same batch of object updates changes nothing. -/
lemma setAll_idem {α : Type} (kvs : List (String × α)) :
    ∀ m : List (String × α), setAll (setAll m kvs) kvs = setAll m kvs := by
  induction kvs with
  | nil => intro m; rfl
  | cons kv rest ih =>
    intro m
    obtain ⟨k, v⟩ := kv
    show setAll (objSet (setAll (objSet m k v) rest) k v) rest = setAll (objSet m k v) rest
    by_cases hk : k ∈ objKeys rest
    · have hmem : k ∈ objKeys (setAll (objSet m k v) rest) :=
        mem_objKeys_setAll rest (objSet m k v) k (mem_objKeys_objSet_self m k v)
      rw [setAll_objSet_absorb rest (setAll (objSet m k v) rest) k v hmem hk]
      exact ih (objSet m k v)
    · have hget : objGet (setAll (objSet m k v) rest) k = some v := by
        rw [objGet_setAll_not_mem rest (objSet m k v) k hk]
        exact objGet_objSet_self m k v
      rw [objSet_objGet_self _ k v hget]
      exact ih (objSet m k v)

/-! Run factorisation for C8. -/

/-- The key/record pairs one run writes into this.members, one per distinct
raw member name, each independent of the parser state. -/
def memberKVs (ops : List Op) : List (String × OverallMember) :=
  (memberNamesOf ops).map fun n => (jsKeyStr n, (parseMemberAcc n ops).overall)

/-- Folding strings from an arbitrary accumulator splits off the
accumulator. -/
lemma strFoldl_shift (l : List String) :
    ∀ s : String, l.foldl (· ++ ·) s = s ++ l.foldl (· ++ ·) "" := by
  induction l with
  | nil => intro s; simp [String.append_empty]
  | cons x rest ih =>
    intro s
    simp only [List.foldl_cons]
    rw [ih (s ++ x), ih ("" ++ x), String.empty_append, String.append_assoc]

/-- Replaying all members updates this.members by the per-name records and
appends the per-name achievement texts to the history, independently of the
starting state. -/
lemma foldl_parseMember_state (ops : List Op) (names : List (Option CellVal)) :
    ∀ st : ParserState,
      (names.foldl (fun s n => parseMember s n ops) st).members =
        setAll st.members (names.map fun n => (jsKeyStr n, (parseMemberAcc n ops).overall)) ∧
      (names.foldl (fun s n => parseMember s n ops) st).achievementHistory =
        st.achievementHistory ++
          (names.map fun n => (parseMemberAcc n ops).achDelta).foldl (· ++ ·) "" := by
  induction names with
  | nil => intro st; exact ⟨rfl, (String.append_empty _).symm⟩
  | cons n rest ih =>
    intro st
    constructor
    · exact (ih (parseMember st n ops)).1
    · rw [show (n :: rest).foldl (fun s n => parseMember s n ops) st =
        rest.foldl (fun s n => parseMember s n ops) (parseMember st n ops) from rfl]
      rw [(ih (parseMember st n ops)).2]
      rw [show (parseMember st n ops).achievementHistory =
        st.achievementHistory ++ (parseMemberAcc n ops).achDelta from rfl]
      simp only [List.map_cons, List.foldl_cons]
      rw [strFoldl_shift _ ("" ++ (parseMemberAcc n ops).achDelta), String.empty_append,
        String.append_assoc]

/-- One run writes the state-independent member records into this.members and
appends the state-independent achievement text to the history. -/
lemma run_state_factorisation (st : ParserState) (sheets : List Sheet) :
    (run st sheets).state.members = setAll st.members (memberKVs (opsOf sheets)) ∧
    (run st sheets).state.achievementHistory =
      st.achievementHistory ++ runAchDelta sheets := by
  have h := foldl_parseMember_state (opsOf sheets) (memberNamesOf (opsOf sheets))
    { st with
      opAchievementLog :=
        (opsOf sheets).foldl
          (fun l op => objSet l op.name ("------ " ++ op.name ++ " ------\n"))
          st.opAchievementLog }
  exact ⟨h.1, h.2⟩

/-- C8 counterexample: running the pipeline a second time on the unmodified
sheetFiveBlocks — the parser instance keeping its state, as the source's
class fields do — produces a different (doubled) achievement history. -/
theorem c8_counterexample :
    (run (run initialState [sheetFiveBlocks]).state [sheetFiveBlocks]).state.achievementHistory ≠
      (run initialState [sheetFiveBlocks]).state.achievementHistory := by decide

/-- C8 amended: a second run on the same unmodified grid collection yields
identical final ParticipantStats (this.members), but the achievement history
is not identical in general: it grows by the run's achievement lines again,
because this.achievementHistory is only ever appended to and never reset
(the two histories coincide exactly when the run emits no achievement
line). -/
theorem c8_second_run (st : ParserState) (sheets : List Sheet) :
    (run (run st sheets).state sheets).state.members = (run st sheets).state.members ∧
    (run (run st sheets).state sheets).state.achievementHistory =
      (run st sheets).state.achievementHistory ++ runAchDelta sheets := by
  constructor
  · rw [(run_state_factorisation (run st sheets).state sheets).1,
      (run_state_factorisation st sheets).1]
    exact setAll_idem (memberKVs (opsOf sheets)) st.members
  · exact (run_state_factorisation (run st sheets).state sheets).2

end CAW8
